import Mathlib

/-!
Shallow embedding of the MGV data-build driver (src/bin/build.py, class
MgvDataBuilder) and proofs about its orchestration behavior.

Modelling choices, each tied to the source:

* A run is modelled as the list of observable events it produces (log
  writes, strategy-object constructions, strategy invocations, opening
  and closing of the log stream) together with an optional error.  An
  error corresponds to an uncaught Python exception: it aborts the run,
  keeping the events emitted so far and suppressing everything after it
  (the driver has no try/except, so every exception propagates).
* `Args` is the post-parse argument namespace built by `getArgs`
  (lines 37-82): `phase`/`type` are `none` when unrestricted, `web_dir`
  already defaulted to the output directory, paths already absolute.
  `argsToString` renders it the way `str(args)` does on an argparse
  Namespace (fields in sorted order), which is what line 125 logs.
* A genome record (`Genome`) is a mapping with a `name` and datatype
  sections; a section (`DTSection`) carries the optional `source` field
  read by `makeDownloaderObject` (line 85) and the optional `url` field
  read by the download log line (line 107); a missing `url` there is a
  KeyError, exactly as `downloader.cfg[t]["url"]` would raise.
* The downloader registry `downloaderNameMap` lives in lib/Downloader
  (outside src); it is modelled as the list of registered names,
  a parameter `registry`.  Lookup of an absent name is a KeyError
  (line 86).  The importer map `importerNameMap` is, per the code,
  keyed by the datatype itself and is total on the three valid types,
  so importer lookup cannot fail in the model.
* `re.compile('^' + args.genome + '$')` (line 126) is external regex
  machinery; its result is modelled as `compiled : Option (String → Bool)`:
  `none` when the pattern text does not compile, otherwise the anchored
  full-match predicate used by `genome_re.match` on line 130.
* The event vocabulary includes `Event.mutateRecord`, the event an
  in-place assignment into a genome record would emit.  The driver's
  statements only ever read the record, so no definition below emits it;
  the frame theorem makes that absence explicit.
-/

namespace MgvData

/-- A datatype section of a genome record: the nested mapping for
`assembly`, `models` or `orthology`.  Only the fields the driver itself
reads are modelled. -/
structure DTSection where
  source : Option String
  url : Option String
  deriving DecidableEq

/-- A genome record from the configuration file: a `name` plus the
datatype sections present, as an association list keyed by the
datatype string. -/
structure Genome where
  name : String
  sections : List (String × DTSection)
  deriving DecidableEq

/-- `t in gg` / `gg[t]`: section lookup on a genome record. -/
def Genome.get (g : Genome) (t : String) : Option DTSection :=
  g.sections.lookup t

/-- The argparse namespace after `getArgs` returns (lines 77-82):
defaults resolved, paths made absolute, `web_dir` defaulted to
`output_dir`. -/
structure Args where
  config_file : String
  genome : String
  phase : Option String
  type : Option String
  log_file : Option String
  downloads_dir : String
  output_dir : String
  web_dir : String
  debug : Bool
  deriving DecidableEq

/-- Line 23: the canonical datatype order. -/
def VALID_TYPES : List String := ["assembly", "models", "orthology"]

/-- Line 24: the valid phases. -/
def VALID_PHASES : List String := ["download", "import", "deploy"]

/-- Observable events of a run. -/
inductive Event where
  | openLog : Event
  | closeLog : Event
  | logMsg : String → Event
  | constructDownloader : String → String → String → Event
  | invokeDownload : String → String → Event
  | constructImporter : String → String → Event
  | invokeImport : String → String → Event
  | constructDeployer : String → String → Event
  | invokeDeploy : String → String → Event
  | mutateRecord : String → String → Event
  deriving DecidableEq

/-- An uncaught exception: either a KeyError on the given key (unknown
downloader name, missing url) or a pattern-compilation error. -/
inductive Err where
  | keyError : String → Err
  | patternError : Err
  deriving DecidableEq

/-- Sequencing with exception propagation: run `a`; if it raised, stop
there with its events; otherwise run `b` after it. -/
def thenRun (a b : List Event × Option Err) : List Event × Option Err :=
  match a.2 with
  | some e => (a.1, some e)
  | none => (a.1 ++ b.1, b.2)

/-- Python `repr` of a quoted string (quotes written as escapes). -/
def renderStr (s : String) : String := "\x27" ++ s ++ "\x27"

/-- Python `repr` of an optional string: `None` or quoted. -/
def renderOpt : Option String → String
  | none => "None"
  | some s => renderStr s

/-- Python `repr` of a bool. -/
def renderBool : Bool → String
  | true => "True"
  | false => "False"

/-- `str(args)` on the argparse namespace (line 125): fields rendered
in sorted order, as `Namespace.__repr__` does.  Note that it includes
the `debug` flag. -/
def argsToString (a : Args) : String :=
  "Namespace(config_file=" ++ renderStr a.config_file ++
  ", debug=" ++ renderBool a.debug ++
  ", downloads_dir=" ++ renderStr a.downloads_dir ++
  ", genome=" ++ renderStr a.genome ++
  ", log_file=" ++ renderOpt a.log_file ++
  ", output_dir=" ++ renderStr a.output_dir ++
  ", phase=" ++ renderOpt a.phase ++
  ", type=" ++ renderOpt a.type ++
  ", web_dir=" ++ renderStr a.web_dir ++ ")"

/-- `str` of one datatype section (a Python dict repr). -/
def sectionToString (sec : DTSection) : String :=
  "\x7b\x27source\x27: " ++ renderOpt sec.source ++
  ", \x27url\x27: " ++ renderOpt sec.url ++ "\x7d"

/-- `str(gg)` of a genome record (line 98), a Python dict repr. -/
def genomeToString (g : Genome) : String :=
  "\x7b\x27name\x27: " ++ renderStr g.name ++
  String.join (g.sections.map
    (fun p => ", " ++ renderStr p.1 ++ ": " ++ sectionToString p.2)) ++
  "\x7d"

/-- Line 85: `g[type].get("source","UrlDownloader")` — the downloader
strategy name, defaulting to `"UrlDownloader"` when the section has no
`source` field. -/
def resolveSource (sec : DTSection) : String :=
  sec.source.getD "UrlDownloader"

/-- Lines 106-108: the download phase for one (genome, datatype) pair.
Runs when the phase restriction is `"download"` or unset.  The log line
reads `downloader.cfg[t]["url"]`, so a missing `url` raises a KeyError
before anything is logged or downloaded. -/
def runDownload (args : Args) (gg : Genome) (t : String) (sec : DTSection) :
    List Event × Option Err :=
  if args.phase = some "download" ∨ args.phase = none then
    match sec.url with
    | none => ([], some (Err.keyError "url"))
    | some u =>
        ([Event.logMsg (gg.name ++ ": downloading " ++ t ++ ": " ++ u),
          Event.invokeDownload gg.name t], none)
  else ([], none)

/-- Lines 110-114: the import phase for one (genome, datatype) pair.
Runs when the phase restriction is `"import"` or unset: looks up the
fixed importer for the datatype, constructs it, logs, and invokes it. -/
def runImportPhase (args : Args) (gg : Genome) (t : String) :
    List Event × Option Err :=
  if args.phase = some "import" ∨ args.phase = none then
    ([Event.constructImporter gg.name t,
      Event.logMsg (gg.name ++ ": importing " ++ t),
      Event.invokeImport gg.name t], none)
  else ([], none)

/-- Lines 116-117: the deploy phase for one (genome, datatype) pair.
Runs when the phase restriction is `"deploy"` or unset: constructs the
Deployer and invokes it. -/
def runDeploy (args : Args) (gg : Genome) (t : String) :
    List Event × Option Err :=
  if args.phase = some "deploy" ∨ args.phase = none then
    ([Event.constructDeployer gg.name t, Event.invokeDeploy gg.name t], none)
  else ([], none)

/-- Lines 100-117, body of the loop over `VALID_TYPES` for one type `t`:
skip if the type restriction excludes `t` or the genome does not declare
it; otherwise resolve the downloader name (lines 84-87) — an unknown
name is a KeyError raised before the object is constructed — construct
the downloader, then run the download, import and deploy phases in
order. -/
def processType (args : Args) (registry : List String) (gg : Genome)
    (t : String) : List Event × Option Err :=
  if args.type = some t ∨ args.type = none then
    match Genome.get gg t with
    | none => ([], none)
    | some sec =>
        if registry.contains (resolveSource sec) then
          thenRun ([Event.constructDownloader gg.name t (resolveSource sec)], none)
            (thenRun (runDownload args gg t sec)
              (thenRun (runImportPhase args gg t) (runDeploy args gg t)))
        else ([], some (Err.keyError (resolveSource sec)))
  else ([], none)

/-- The `for t in self.VALID_TYPES` loop (line 100) over a list of
types, aborting at the first uncaught exception. -/
def processTypes (args : Args) (registry : List String) (gg : Genome) :
    List String → List Event × Option Err
  | [] => ([], none)
  | t :: ts =>
      thenRun (processType args registry gg t) (processTypes args registry gg ts)

/-- Lines 97-117: `process(gg)` — log the record being processed, then
visit the three canonical datatypes in order. -/
def process (args : Args) (registry : List String) (gg : Genome) :
    List Event × Option Err :=
  thenRun ([Event.logMsg ("Processing cfg: " ++ genomeToString gg)], none)
    (processTypes args registry gg VALID_TYPES)

/-- Lines 129-133: the loop over the loaded genome list: a genome whose
name matches the compiled pattern is processed; otherwise a skip notice
is logged. -/
def runGenomes (args : Args) (m : String → Bool) (registry : List String) :
    List Genome → List Event × Option Err
  | [] => ([], none)
  | g :: gs =>
      thenRun
        (if m g.name then process args registry g
         else ([Event.logMsg ("Skipped " ++ g.name ++ ".")], none))
        (runGenomes args m registry gs)

/-- Lines 122-126: what `main` does before the genome loop: open the log
destination, log the banner and the argument namespace. -/
def startupEvents (args : Args) : List Event :=
  [Event.openLog,
   Event.logMsg "\n\nThis is the MGV back end data builder.",
   Event.logMsg ("Arguments: " ++ argsToString args)]

/-- Lines 126-135 after the startup logging: compile the pattern (a bad
pattern raises before the config is read), run the genome loop, then log
the termination message and close the log stream. -/
def mainLoop (args : Args) (compiled : Option (String → Bool))
    (registry : List String) (cfg : List Genome) : List Event × Option Err :=
  match compiled with
  | none => ([], some Err.patternError)
  | some m =>
      thenRun (runGenomes args m registry cfg)
        ([Event.logMsg "Builder exiting.", Event.closeLog], none)

/-- Lines 119-135: `main` — startup logging, then the loop and the
normal-termination epilogue.  `compiled` is the result of
`re.compile` on the anchored pattern; `cfg` the genome list the config
reader returned. -/
def main (args : Args) (compiled : Option (String → Bool))
    (registry : List String) (cfg : List Genome) : List Event × Option Err :=
  thenRun (startupEvents args, none) (mainLoop args compiled registry cfg)

/-- The genome filter as applied on line 130: the subsequence of the
configuration whose names the compiled pattern accepts. -/
def selectGenomes (m : String → Bool) (cfg : List Genome) : List Genome :=
  cfg.filter (fun g => m g.name)

/-- Is this event an invocation of a downloader's fetch operation? -/
def Event.isDownloadInvoke : Event → Bool
  | .invokeDownload _ _ => true
  | _ => false

/-- Is this event a construction or invocation of an importer? -/
def Event.isImportEvent : Event → Bool
  | .constructImporter _ _ => true
  | .invokeImport _ _ => true
  | _ => false

/-- Is this event a strategy construction or invocation of any kind? -/
def Event.isStrategyEvent : Event → Bool
  | .constructDownloader _ _ _ => true
  | .invokeDownload _ _ => true
  | .constructImporter _ _ => true
  | .invokeImport _ _ => true
  | .constructDeployer _ _ => true
  | .invokeDeploy _ _ => true
  | _ => false

/-- Is this event a strategy invocation (download, import or deploy)? -/
def Event.isInvoke : Event → Bool
  | .invokeDownload _ _ => true
  | .invokeImport _ _ => true
  | .invokeDeploy _ _ => true
  | _ => false

/-- Is this event a strategy construction for the genome named `n`? -/
def constructsFor (n : String) : Event → Bool
  | .constructDownloader g _ _ => g == n
  | .constructImporter g _ => g == n
  | .constructDeployer g _ => g == n
  | _ => false

/-- Is this event an in-place mutation of a genome record? -/
def Event.isMutation : Event → Bool
  | .mutateRecord _ _ => true
  | _ => false

/-- Is this event the closing of the log stream? -/
def isCloseEvent : Event → Bool
  | .closeLog => true
  | _ => false

/-- Is this event the termination log message of line 134? -/
def isExitMsg : Event → Bool
  | .logMsg s => s == "Builder exiting."
  | _ => false

/-- Events that pass the deploy-only observation: not a download
invocation and not an importer construction or invocation. -/
def deployPhaseSafe (e : Event) : Bool :=
  !(Event.isDownloadInvoke e) && !(Event.isImportEvent e)

/-- Events that are not an in-place mutation of a genome record. -/
def notMutation (e : Event) : Bool :=
  !(Event.isMutation e)

/-- Events that are not a strategy construction or invocation. -/
def notStrategy (e : Event) : Bool :=
  !(Event.isStrategyEvent e)

/-! ### Concrete run fixtures, used by witnesses and counterexamples -/

/-- A concrete argument namespace: all defaults, no restrictions. -/
def exArgs : Args :=
  { config_file := "./genomes.json", genome := "mouse", phase := none,
    type := none, log_file := none, downloads_dir := "/data/downloads",
    output_dir := "/data/output", web_dir := "/data/output", debug := false }

/-- `exArgs` restricted to the deploy phase. -/
def exArgsDeploy : Args := { exArgs with phase := some "deploy" }

/-- A section naming the default downloader explicitly. -/
def exSec : DTSection :=
  { source := some "UrlDownloader", url := some "http://example.org/a.fa.gz" }

/-- A section with no `source` field. -/
def exSecDefault : DTSection :=
  { source := none, url := some "http://example.org/m.gff3.gz" }

/-- A section whose `source` names an unregistered downloader. -/
def exSecBogus : DTSection :=
  { source := some "BogusSource", url := some "http://example.org/z" }

/-- A genome with assembly and models sections. -/
def exMouse : Genome :=
  { name := "mouse", sections := [("assembly", exSec), ("models", exSecDefault)] }

/-- A genome with one section, used as the unmatched genome. -/
def exRat : Genome :=
  { name := "rat", sections := [("assembly", exSecDefault)] }

/-- A genome declaring none of the three datatypes. -/
def exBare : Genome :=
  { name := "bare", sections := [] }

/-- A genome whose assembly section names an unknown downloader. -/
def exBad : Genome :=
  { name := "mouse", sections := [("assembly", exSecBogus)] }

/-- A concrete registry of downloader names. -/
def exReg : List String := ["UrlDownloader", "FileDownloader"]

/-- A compiled pattern accepting every name. -/
def matchAll : String → Bool := fun _ => true

/-- A compiled pattern accepting exactly the name "mouse". -/
def matchMouse : String → Bool := fun s => s == "mouse"

/-! ### Basic lemmas about sequencing -/

theorem thenRun_none (evs : List Event) (b : List Event × Option Err) :
    thenRun (evs, none) b = (evs ++ b.1, b.2) := rfl

theorem thenRun_some (evs : List Event) (e : Err) (b : List Event × Option Err) :
    thenRun (evs, some e) b = (evs, some e) := rfl

theorem thenRun_snd_none_iff (a b : List Event × Option Err) :
    (thenRun a b).2 = none ↔ a.2 = none ∧ b.2 = none := by
  rcases a with ⟨evs, err⟩
  cases err <;> simp [thenRun]

theorem thenRun_fst_of_ok {a : List Event × Option Err}
    (b : List Event × Option Err) (h : a.2 = none) :
    (thenRun a b).1 = a.1 ++ b.1 := by
  rcases a with ⟨evs, err⟩
  cases err with
  | none => rfl
  | some e => cases h

theorem mem_thenRun {e : Event} {a b : List Event × Option Err}
    (he : e ∈ (thenRun a b).1) : e ∈ a.1 ∨ e ∈ b.1 := by
  rcases a with ⟨evs, err⟩
  cases err with
  | none => simpa [thenRun] using he
  | some x => exact Or.inl (by simpa [thenRun] using he)

/-! ### String disequalities between the driver's log messages -/

theorem ne_of_char_mem {s q : String} {c : Char}
    (hc : c ∈ s.data) (hq : c ∉ q.data) : s ≠ q := by
  intro h
  subst h
  exact hq hc

theorem colon_mem_downloading (n t u : String) :
    (':' : Char) ∈ (n ++ ": downloading " ++ t ++ ": " ++ u).data := by
  simp [String.data_append, List.mem_append]

theorem colon_mem_importing (n t : String) :
    (':' : Char) ∈ (n ++ ": importing " ++ t).data := by
  simp [String.data_append, List.mem_append]

theorem colon_mem_processing (x : String) :
    (':' : Char) ∈ ("Processing cfg: " ++ x).data := by
  simp [String.data_append, List.mem_append]

theorem colon_mem_arguments (x : String) :
    (':' : Char) ∈ ("Arguments: " ++ x).data := by
  simp [String.data_append, List.mem_append]

theorem k_mem_skipped (n : String) :
    ('k' : Char) ∈ ("Skipped " ++ n ++ ".").data := by
  simp [String.data_append, List.mem_append]

theorem downloading_ne_exit (n t u : String) :
    (n ++ ": downloading " ++ t ++ ": " ++ u) ≠ "Builder exiting." :=
  ne_of_char_mem (colon_mem_downloading n t u) (by decide)

theorem importing_ne_exit (n t : String) :
    (n ++ ": importing " ++ t) ≠ "Builder exiting." :=
  ne_of_char_mem (colon_mem_importing n t) (by decide)

theorem processing_ne_exit (x : String) :
    ("Processing cfg: " ++ x) ≠ "Builder exiting." :=
  ne_of_char_mem (colon_mem_processing x) (by decide)

theorem arguments_ne_exit (x : String) :
    ("Arguments: " ++ x) ≠ "Builder exiting." :=
  ne_of_char_mem (colon_mem_arguments x) (by decide)

theorem skipped_ne_exit (n : String) :
    ("Skipped " ++ n ++ ".") ≠ "Builder exiting." :=
  ne_of_char_mem (k_mem_skipped n) (by decide)

theorem processing_ne_skipped (x n : String) :
    ("Processing cfg: " ++ x) ≠ ("Skipped " ++ n ++ ".") := by
  intro h
  have h2 := congrArg String.data h
  rw [String.data_append, String.data_append, String.data_append] at h2
  have h3 : "Processing cfg: ".data = 'P' :: "rocessing cfg: ".data := by decide
  have h4 : "Skipped ".data = 'S' :: "kipped ".data := by decide
  rw [h3, h4] at h2
  simp only [List.cons_append, List.append_assoc] at h2
  obtain ⟨h5, -⟩ := List.cons.inj h2
  exact absurd h5 (by decide)

/-! ### Shape of the traces: which events each part of the driver can emit -/

theorem mem_runDownload_shape {args : Args} {gg : Genome} {t : String}
    {sec : DTSection} {e : Event} (he : e ∈ (runDownload args gg t sec).1) :
    (∃ u, e = Event.logMsg (gg.name ++ ": downloading " ++ t ++ ": " ++ u)) ∨
    e = Event.invokeDownload gg.name t := by
  unfold runDownload at he
  split at he
  · split at he
    · simp at he
    · rename_i u hu
      simp at he
      exact he.imp (fun h => ⟨u, h⟩) id
  · simp at he

theorem mem_runImportPhase_shape {args : Args} {gg : Genome} {t : String}
    {e : Event} (he : e ∈ (runImportPhase args gg t).1) :
    e = Event.constructImporter gg.name t ∨
    e = Event.logMsg (gg.name ++ ": importing " ++ t) ∨
    e = Event.invokeImport gg.name t := by
  unfold runImportPhase at he
  split at he
  · simpa using he
  · simp at he

theorem mem_runDeploy_shape {args : Args} {gg : Genome} {t : String}
    {e : Event} (he : e ∈ (runDeploy args gg t).1) :
    e = Event.constructDeployer gg.name t ∨ e = Event.invokeDeploy gg.name t := by
  unfold runDeploy at he
  split at he
  · simpa using he
  · simp at he

theorem mem_processType_shape {args : Args} {registry : List String}
    {gg : Genome} {t : String} {e : Event}
    (he : e ∈ (processType args registry gg t).1) :
    (∃ s, e = Event.constructDownloader gg.name t s) ∨
    (∃ u, e = Event.logMsg (gg.name ++ ": downloading " ++ t ++ ": " ++ u)) ∨
    e = Event.invokeDownload gg.name t ∨
    e = Event.constructImporter gg.name t ∨
    e = Event.logMsg (gg.name ++ ": importing " ++ t) ∨
    e = Event.invokeImport gg.name t ∨
    e = Event.constructDeployer gg.name t ∨
    e = Event.invokeDeploy gg.name t := by
  unfold processType at he
  split at he
  · split at he
    · simp at he
    · split at he
      · rcases mem_thenRun he with h1 | h1
        · simp at h1
          exact Or.inl ⟨_, h1⟩
        · rcases mem_thenRun h1 with h2 | h2
          · rcases mem_runDownload_shape h2 with h3 | h3
            · exact Or.inr (Or.inl h3)
            · exact Or.inr (Or.inr (Or.inl h3))
          · rcases mem_thenRun h2 with h3 | h3
            · rcases mem_runImportPhase_shape h3 with h4 | h4 | h4
              · exact Or.inr (Or.inr (Or.inr (Or.inl h4)))
              · exact Or.inr (Or.inr (Or.inr (Or.inr (Or.inl h4))))
              · exact Or.inr (Or.inr (Or.inr (Or.inr (Or.inr (Or.inl h4)))))
            · rcases mem_runDeploy_shape h3 with h4 | h4
              · exact Or.inr (Or.inr (Or.inr (Or.inr (Or.inr (Or.inr (Or.inl h4))))))
              · exact Or.inr (Or.inr (Or.inr (Or.inr (Or.inr (Or.inr (Or.inr h4))))))
      · simp at he
  · simp at he

theorem mem_processTypes_shape {args : Args} {registry : List String}
    {gg : Genome} {ts : List String} {e : Event}
    (he : e ∈ (processTypes args registry gg ts).1) :
    ∃ t ∈ ts, e ∈ (processType args registry gg t).1 := by
  induction ts with
  | nil => simp [processTypes] at he
  | cons t ts ih =>
      simp only [processTypes] at he
      rcases mem_thenRun he with h | h
      · exact ⟨t, List.mem_cons_self _ _, h⟩
      · obtain ⟨t2, ht2, h2⟩ := ih h
        exact ⟨t2, List.mem_cons_of_mem _ ht2, h2⟩

theorem mem_process_shape {args : Args} {registry : List String}
    {gg : Genome} {e : Event} (he : e ∈ (process args registry gg).1) :
    e = Event.logMsg ("Processing cfg: " ++ genomeToString gg) ∨
    ∃ t ∈ VALID_TYPES, e ∈ (processType args registry gg t).1 := by
  rcases mem_thenRun he with h | h
  · simp at h
    exact Or.inl h
  · exact Or.inr (mem_processTypes_shape h)

theorem mem_runGenomes_shape {args : Args} {m : String → Bool}
    {registry : List String} {gs : List Genome} {e : Event}
    (he : e ∈ (runGenomes args m registry gs).1) :
    (∃ g ∈ gs, m g.name = true ∧ e ∈ (process args registry g).1) ∨
    (∃ g ∈ gs, m g.name = false ∧
       e = Event.logMsg ("Skipped " ++ g.name ++ ".")) := by
  induction gs with
  | nil => simp [runGenomes] at he
  | cons g gs ih =>
      simp only [runGenomes] at he
      rcases mem_thenRun he with h | h
      · by_cases hm : m g.name = true
        · rw [if_pos hm] at h
          exact Or.inl ⟨g, List.mem_cons_self _ _, hm, h⟩
        · rw [if_neg hm] at h
          simp at h
          exact Or.inr ⟨g, List.mem_cons_self _ _, by simpa using hm, h⟩
      · rcases ih h with ⟨g2, hg2, hh⟩ | ⟨g2, hg2, hh⟩
        · exact Or.inl ⟨g2, List.mem_cons_of_mem _ hg2, hh⟩
        · exact Or.inr ⟨g2, List.mem_cons_of_mem _ hg2, hh⟩

theorem mem_main_cases {args : Args} {compiled : Option (String → Bool)}
    {registry : List String} {cfg : List Genome} {e : Event}
    (he : e ∈ (main args compiled registry cfg).1) :
    e ∈ startupEvents args ∨
    (∃ m, compiled = some m ∧ e ∈ (runGenomes args m registry cfg).1) ∨
    e = Event.logMsg "Builder exiting." ∨ e = Event.closeLog := by
  simp only [main] at he
  rcases mem_thenRun he with h | h
  · exact Or.inl h
  · cases compiled with
    | none => simp [mainLoop] at h
    | some m =>
        simp only [mainLoop] at h
        rcases mem_thenRun h with h1 | h1
        · exact Or.inr (Or.inl ⟨m, rfl, h1⟩)
        · simp at h1
          exact Or.inr (Or.inr h1)

/-! ### Exact computation of the phase runner under given restrictions -/

theorem runDownload_all {args : Args} {sec : DTSection} {u : String}
    (gg : Genome) (t : String)
    (hphase : args.phase = none) (hurl : sec.url = some u) :
    runDownload args gg t sec =
      ([Event.logMsg (gg.name ++ ": downloading " ++ t ++ ": " ++ u),
        Event.invokeDownload gg.name t], none) := by
  unfold runDownload
  rw [if_pos (Or.inr hphase), hurl]

theorem runImportPhase_all {args : Args} (gg : Genome) (t : String)
    (hphase : args.phase = none) :
    runImportPhase args gg t =
      ([Event.constructImporter gg.name t,
        Event.logMsg (gg.name ++ ": importing " ++ t),
        Event.invokeImport gg.name t], none) := by
  unfold runImportPhase
  rw [if_pos (Or.inr hphase)]

theorem runDeploy_all {args : Args} (gg : Genome) (t : String)
    (hphase : args.phase = none) :
    runDeploy args gg t =
      ([Event.constructDeployer gg.name t, Event.invokeDeploy gg.name t],
       none) := by
  unfold runDeploy
  rw [if_pos (Or.inr hphase)]

theorem processType_not_declared {args : Args} {registry : List String}
    {gg : Genome} {t : String} (hget : Genome.get gg t = none) :
    processType args registry gg t = ([], none) := by
  unfold processType
  rw [hget]
  split <;> rfl

theorem processType_unknown_source {args : Args} {registry : List String}
    {gg : Genome} {t : String} {sec : DTSection}
    (hsel : args.type = some t ∨ args.type = none)
    (hget : Genome.get gg t = some sec)
    (hreg : registry.contains (resolveSource sec) = false) :
    processType args registry gg t =
      ([], some (Err.keyError (resolveSource sec))) := by
  unfold processType
  rw [if_pos hsel]
  simp only [hget]
  rw [if_neg (by rw [hreg]; decide)]

theorem processType_all {args : Args} {registry : List String}
    {gg : Genome} {t : String} {sec : DTSection} {u : String}
    (hphase : args.phase = none) (htype : args.type = none)
    (hget : Genome.get gg t = some sec) (hurl : sec.url = some u)
    (hreg : registry.contains (resolveSource sec) = true) :
    processType args registry gg t =
      ([Event.constructDownloader gg.name t (resolveSource sec),
        Event.logMsg (gg.name ++ ": downloading " ++ t ++ ": " ++ u),
        Event.invokeDownload gg.name t,
        Event.constructImporter gg.name t,
        Event.logMsg (gg.name ++ ": importing " ++ t),
        Event.invokeImport gg.name t,
        Event.constructDeployer gg.name t,
        Event.invokeDeploy gg.name t], none) := by
  unfold processType
  rw [if_pos (Or.inr htype)]
  simp only [hget]
  rw [if_pos hreg, runDownload_all gg t hphase hurl,
      runImportPhase_all gg t hphase, runDeploy_all gg t hphase]
  rfl

theorem processType_ok_inv {args : Args} {registry : List String}
    {gg : Genome} {t : String} {sec : DTSection}
    (hphase : args.phase = none) (htype : args.type = none)
    (hget : Genome.get gg t = some sec)
    (hok : (processType args registry gg t).2 = none) :
    registry.contains (resolveSource sec) = true ∧ ∃ u, sec.url = some u := by
  by_cases hreg : registry.contains (resolveSource sec) = true
  · refine ⟨hreg, ?_⟩
    cases hurl : sec.url with
    | some u => exact ⟨u, rfl⟩
    | none =>
        exfalso
        have heq : processType args registry gg t =
            ([Event.constructDownloader gg.name t (resolveSource sec)],
             some (Err.keyError "url")) := by
          unfold processType
          rw [if_pos (Or.inr htype)]
          simp only [hget]
          rw [if_pos hreg]
          unfold runDownload
          rw [if_pos (Or.inr hphase), hurl]
          rfl
        rw [heq] at hok
        cases hok
  · exfalso
    have heq : processType args registry gg t =
        ([], some (Err.keyError (resolveSource sec))) :=
      processType_unknown_source (Or.inr htype) hget (by simpa using hreg)
    rw [heq] at hok
    cases hok

theorem processTypes_all_absent {args : Args} {registry : List String}
    {gg : Genome} {ts : List String}
    (h : ∀ t ∈ ts, Genome.get gg t = none) :
    processTypes args registry gg ts = ([], none) := by
  induction ts with
  | nil => rfl
  | cons t ts ih =>
      simp only [processTypes]
      rw [processType_not_declared (h t (List.mem_cons_self _ _)),
          ih (fun x hx => h x (List.mem_cons_of_mem _ hx))]
      rfl

/-! ### Success-path characterizations -/

theorem runGenomes_ok_trace {args : Args} {m : String → Bool}
    {registry : List String} {gs : List Genome}
    (hok : (runGenomes args m registry gs).2 = none) :
    (runGenomes args m registry gs).1 =
      gs.flatMap (fun g =>
        if m g.name then (process args registry g).1
        else [Event.logMsg ("Skipped " ++ g.name ++ ".")]) := by
  induction gs with
  | nil => simp [runGenomes]
  | cons g gs ih =>
      simp only [runGenomes] at hok ⊢
      have hsplit := (thenRun_snd_none_iff _ _).mp hok
      rw [thenRun_fst_of_ok _ hsplit.1, ih hsplit.2, List.flatMap_cons]
      congr 1
      by_cases hm : m g.name = true
      · rw [if_pos hm, if_pos hm]
      · rw [if_neg hm, if_neg hm]

theorem processTypes_ok_filter {args : Args} {registry : List String}
    {gg : Genome} {ts : List String}
    (hphase : args.phase = none) (htype : args.type = none)
    (hok : (processTypes args registry gg ts).2 = none) :
    (processTypes args registry gg ts).1.filter Event.isInvoke =
      (ts.filter (fun t => (Genome.get gg t).isSome)).flatMap
        (fun t => [Event.invokeDownload gg.name t,
                   Event.invokeImport gg.name t,
                   Event.invokeDeploy gg.name t]) := by
  induction ts with
  | nil => simp [processTypes]
  | cons t ts ih =>
      simp only [processTypes] at hok ⊢
      have hsplit := (thenRun_snd_none_iff _ _).mp hok
      rw [thenRun_fst_of_ok _ hsplit.1, List.filter_append, ih hsplit.2]
      cases hget : Genome.get gg t with
      | none =>
          rw [processType_not_declared hget]
          simp [hget]
      | some sec =>
          obtain ⟨hreg, u, hurl⟩ :=
            processType_ok_inv hphase htype hget hsplit.1
          rw [processType_all hphase htype hget hurl hreg]
          simp [hget, Event.isInvoke]

theorem process_ok_filter {args : Args} {registry : List String} {gg : Genome}
    (hphase : args.phase = none) (htype : args.type = none)
    (hok : (process args registry gg).2 = none) :
    (process args registry gg).1.filter Event.isInvoke =
      (VALID_TYPES.filter (fun t => (Genome.get gg t).isSome)).flatMap
        (fun t => [Event.invokeDownload gg.name t,
                   Event.invokeImport gg.name t,
                   Event.invokeDeploy gg.name t]) := by
  simp only [process] at hok ⊢
  have hsplit := (thenRun_snd_none_iff _ _).mp hok
  rw [thenRun_fst_of_ok _ rfl, List.filter_append,
      processTypes_ok_filter hphase htype hsplit.2]
  simp [Event.isInvoke]

theorem runGenomes_ok_filter {args : Args} {m : String → Bool}
    {registry : List String} {gs : List Genome}
    (hphase : args.phase = none) (htype : args.type = none)
    (hok : (runGenomes args m registry gs).2 = none) :
    (runGenomes args m registry gs).1.filter Event.isInvoke =
      (selectGenomes m gs).flatMap (fun g =>
        (VALID_TYPES.filter (fun t => (Genome.get g t).isSome)).flatMap
          (fun t => [Event.invokeDownload g.name t,
                     Event.invokeImport g.name t,
                     Event.invokeDeploy g.name t])) := by
  induction gs with
  | nil => simp [runGenomes, selectGenomes]
  | cons g gs ih =>
      simp only [runGenomes] at hok ⊢
      have hsplit := (thenRun_snd_none_iff _ _).mp hok
      rw [thenRun_fst_of_ok _ hsplit.1, List.filter_append, ih hsplit.2]
      by_cases hm : m g.name = true
      · rw [if_pos hm] at hsplit
        have hpf := process_ok_filter hphase htype hsplit.1
        rw [if_pos hm, hpf]
        simp [selectGenomes, hm]
      · rw [if_neg hm] at hsplit
        rw [if_neg hm]
        have hmf : m g.name = false := by simpa using hm
        simp [selectGenomes, hmf, Event.isInvoke]

/-! ### Deploy-only phase restriction -/

theorem mem_processType_deploy {args : Args} {registry : List String}
    {gg : Genome} {t : String} {e : Event}
    (h : args.phase = some "deploy")
    (he : e ∈ (processType args registry gg t).1) :
    (∃ s, e = Event.constructDownloader gg.name t s) ∨
    e = Event.constructDeployer gg.name t ∨
    e = Event.invokeDeploy gg.name t := by
  have hd : ∀ sec, runDownload args gg t sec = ([], none) := fun sec => by
    unfold runDownload
    rw [if_neg (by rw [h]; decide)]
  have hi : runImportPhase args gg t = ([], none) := by
    unfold runImportPhase
    rw [if_neg (by rw [h]; decide)]
  unfold processType at he
  split at he
  · split at he
    · simp at he
    · rename_i sec hsec
      split at he
      · rw [hd sec, hi] at he
        rcases mem_thenRun he with h1 | h1
        · simp at h1
          exact Or.inl ⟨_, h1⟩
        · rcases mem_thenRun h1 with h2 | h2
          · simp [thenRun] at h2
          · rcases mem_thenRun h2 with h3 | h3
            · simp at h3
            · rcases mem_runDeploy_shape h3 with h4 | h4
              · exact Or.inr (Or.inl h4)
              · exact Or.inr (Or.inr h4)
      · simp at he
  · simp at he

/-! ### The debug flag is never read after the startup log -/

theorem processType_debug (args : Args) (b : Bool) (registry : List String)
    (gg : Genome) (t : String) :
    processType { args with debug := b } registry gg t =
      processType args registry gg t := rfl

theorem process_debug (args : Args) (b : Bool) (registry : List String)
    (gg : Genome) :
    process { args with debug := b } registry gg = process args registry gg := rfl

theorem runGenomes_debug (args : Args) (b : Bool) (m : String → Bool)
    (registry : List String) (gs : List Genome) :
    runGenomes { args with debug := b } m registry gs =
      runGenomes args m registry gs := by
  induction gs with
  | nil => rfl
  | cons g gs ih =>
      simp only [runGenomes]
      rw [ih, process_debug]

theorem mainLoop_debug (args : Args) (b : Bool)
    (compiled : Option (String → Bool)) (registry : List String)
    (cfg : List Genome) :
    mainLoop { args with debug := b } compiled registry cfg =
      mainLoop args compiled registry cfg := by
  cases compiled with
  | none => rfl
  | some m =>
      simp only [mainLoop]
      rw [runGenomes_debug]

/-! ### Decomposition of main -/

theorem thenRun_of_ok {a : List Event × Option Err}
    (b : List Event × Option Err) (h : a.2 = none) :
    thenRun a b = (a.1 ++ b.1, b.2) := by
  rcases a with ⟨evs, err⟩
  cases err with
  | none => rfl
  | some e => cases h

theorem thenRun_of_err {a : List Event × Option Err} {e : Err}
    (b : List Event × Option Err) (h : a.2 = some e) :
    thenRun a b = (a.1, some e) := by
  rcases a with ⟨evs, err⟩
  cases err with
  | none => cases h
  | some x =>
      cases h
      rfl

theorem main_eq (args : Args) (compiled : Option (String → Bool))
    (registry : List String) (cfg : List Genome) :
    main args compiled registry cfg =
      (startupEvents args ++ (mainLoop args compiled registry cfg).1,
       (mainLoop args compiled registry cfg).2) := rfl

theorem main_none_eq (args : Args) (registry : List String) (cfg : List Genome) :
    main args none registry cfg = (startupEvents args, some Err.patternError) := by
  rw [main_eq]
  simp [mainLoop]

theorem main_ok_rg {args : Args} {m : String → Bool} {registry : List String}
    {cfg : List Genome}
    (hok : (main args (some m) registry cfg).2 = none) :
    (runGenomes args m registry cfg).2 = none := by
  rw [main_eq] at hok
  simp only [mainLoop] at hok
  exact ((thenRun_snd_none_iff _ _).mp hok).1

theorem main_ok_trace {args : Args} {m : String → Bool} {registry : List String}
    {cfg : List Genome}
    (hok : (main args (some m) registry cfg).2 = none) :
    (main args (some m) registry cfg).1 =
      startupEvents args ++ (runGenomes args m registry cfg).1 ++
      [Event.logMsg "Builder exiting.", Event.closeLog] := by
  have hrg := main_ok_rg hok
  rw [main_eq]
  simp only [mainLoop]
  rw [thenRun_of_ok _ hrg]
  simp [List.append_assoc]

theorem main_ok_flat {args : Args} {m : String → Bool} {registry : List String}
    {cfg : List Genome}
    (hok : (main args (some m) registry cfg).2 = none) :
    (main args (some m) registry cfg).1 =
      startupEvents args ++
      cfg.flatMap (fun g =>
        if m g.name then (process args registry g).1
        else [Event.logMsg ("Skipped " ++ g.name ++ ".")]) ++
      [Event.logMsg "Builder exiting.", Event.closeLog] := by
  rw [main_ok_trace hok, runGenomes_ok_trace (main_ok_rg hok)]

/-! ### No close event and no termination message before the epilogue -/

theorem notClose_notExit_of_runGenomes {args : Args} {m : String → Bool}
    {registry : List String} {gs : List Genome} {e : Event}
    (he : e ∈ (runGenomes args m registry gs).1) :
    isCloseEvent e = false ∧ isExitMsg e = false := by
  rcases mem_runGenomes_shape he with ⟨g, hg, hm, hp⟩ | ⟨g, hg, hm, rfl⟩
  · rcases mem_process_shape hp with rfl | ⟨t, ht, hpt⟩
    · exact ⟨rfl, beq_eq_false_iff_ne.mpr (processing_ne_exit _)⟩
    · rcases mem_processType_shape hpt with
        ⟨s, rfl⟩ | ⟨u, rfl⟩ | rfl | rfl | rfl | rfl | rfl | rfl
      · exact ⟨rfl, rfl⟩
      · exact ⟨rfl, beq_eq_false_iff_ne.mpr (downloading_ne_exit _ _ _)⟩
      · exact ⟨rfl, rfl⟩
      · exact ⟨rfl, rfl⟩
      · exact ⟨rfl, beq_eq_false_iff_ne.mpr (importing_ne_exit _ _)⟩
      · exact ⟨rfl, rfl⟩
      · exact ⟨rfl, rfl⟩
      · exact ⟨rfl, rfl⟩
  · exact ⟨rfl, beq_eq_false_iff_ne.mpr (skipped_ne_exit _)⟩

theorem startup_countP_close (args : Args) :
    (startupEvents args).countP isCloseEvent = 0 :=
  List.countP_eq_zero.mpr (by
    intro e he
    simp [startupEvents] at he
    rcases he with rfl | rfl | rfl <;> simp [isCloseEvent])

theorem startup_countP_exit (args : Args) :
    (startupEvents args).countP isExitMsg = 0 :=
  List.countP_eq_zero.mpr (by
    intro e he
    simp [startupEvents] at he
    rcases he with rfl | rfl | rfl
    · simp [isExitMsg]
    · simp [isExitMsg]
    · simp [isExitMsg]
      exact arguments_ne_exit _)

theorem rg_countP_close {args : Args} {m : String → Bool}
    {registry : List String} {gs : List Genome} :
    (runGenomes args m registry gs).1.countP isCloseEvent = 0 :=
  List.countP_eq_zero.mpr (fun e he => by
    simp [(notClose_notExit_of_runGenomes he).1])

theorem rg_countP_exit {args : Args} {m : String → Bool}
    {registry : List String} {gs : List Genome} :
    (runGenomes args m registry gs).1.countP isExitMsg = 0 :=
  List.countP_eq_zero.mpr (fun e he => by
    simp [(notClose_notExit_of_runGenomes he).2])

/-! ### Construction events belong to matched genomes only -/

theorem constructsFor_unmatched {args : Args} {m : String → Bool}
    {registry : List String} {cfg : List Genome} {n : String} {e : Event}
    (hnm : m n = false)
    (he : e ∈ (main args (some m) registry cfg).1) :
    constructsFor n e = false := by
  rcases mem_main_cases he with hs | ⟨m2, hm2, hrg⟩ | rfl | rfl
  · simp [startupEvents] at hs
    rcases hs with rfl | rfl | rfl <;> rfl
  · injection hm2 with hm2e
    subst hm2e
    rcases mem_runGenomes_shape hrg with ⟨g, hg, hmg, hp⟩ | ⟨g, hg, hmg, rfl⟩
    · have hne : g.name ≠ n := by
        intro hh
        rw [hh, hnm] at hmg
        cases hmg
      rcases mem_process_shape hp with rfl | ⟨t, ht, hpt⟩
      · rfl
      · rcases mem_processType_shape hpt with
          ⟨s, rfl⟩ | ⟨u, rfl⟩ | rfl | rfl | rfl | rfl | rfl | rfl
        · exact beq_eq_false_iff_ne.mpr hne
        · rfl
        · rfl
        · exact beq_eq_false_iff_ne.mpr hne
        · rfl
        · rfl
        · exact beq_eq_false_iff_ne.mpr hne
        · rfl
    · rfl
  · rfl
  · rfl

/-! ### The claims -/

/-- C1, counterexample to the claim as stated: with the phase restricted
to "deploy", the run on a selected genome with an assembly section still
constructs the downloader strategy object (line 104 runs before any
phase test), even though the run succeeds and only deploy is invoked. -/
theorem deploy_only_still_constructs_downloader :
    exArgsDeploy.phase = some "deploy" ∧
    (main exArgsDeploy (some matchAll) exReg [exMouse]).2 = none ∧
    Event.constructDownloader "mouse" "assembly" "UrlDownloader" ∈
      (main exArgsDeploy (some matchAll) exReg [exMouse]).1 := by
  decide

/-- C1, amended: when the phase restriction is "deploy", no download
operation is ever invoked and no import strategy is ever constructed or
invoked; the downloader object is still constructed for name
resolution. -/
theorem deploy_only_no_download_no_import (args : Args)
    (compiled : Option (String → Bool)) (registry : List String)
    (cfg : List Genome) (h : args.phase = some "deploy") :
    ((main args compiled registry cfg).1.all deployPhaseSafe) = true := by
  rw [List.all_eq_true]
  intro e he
  rcases mem_main_cases he with hs | ⟨m, hm, hrg⟩ | rfl | rfl
  · simp [startupEvents] at hs
    rcases hs with rfl | rfl | rfl <;> rfl
  · rcases mem_runGenomes_shape hrg with ⟨g, hg, hmg, hp⟩ | ⟨g, hg, hmg, rfl⟩
    · rcases mem_process_shape hp with rfl | ⟨t, ht, hpt⟩
      · rfl
      · rcases mem_processType_deploy h hpt with ⟨s, rfl⟩ | rfl | rfl <;> rfl
    · rfl
  · rfl
  · rfl

/-- Witness for the amended C1 at a concrete deploy-only run. -/
theorem deploy_only_no_download_no_import_witness :
    ((main exArgsDeploy (some matchAll) exReg [exMouse]).1.all
      deployPhaseSafe) = true :=
  deploy_only_no_download_no_import exArgsDeploy (some matchAll) exReg
    [exMouse] rfl

/-- C2, counterexample to the claim as stated: when an unknown
downloader name aborts the run, the driver neither logs the termination
message nor closes the log stream — `main` has no try/finally. -/
theorem error_exit_skips_close_and_exit_message :
    (main exArgs (some matchMouse) exReg [exBad]).2 =
      some (Err.keyError "BogusSource") ∧
    Event.closeLog ∉ (main exArgs (some matchMouse) exReg [exBad]).1 ∧
    Event.logMsg "Builder exiting." ∉
      (main exArgs (some matchMouse) exReg [exBad]).1 := by
  decide

/-- C2, amended: on normal completion the driver logs the termination
message and closes the log stream exactly once; on an exit caused by a
propagated error it does neither (count zero on that path). -/
theorem close_and_exit_exactly_on_success (args : Args)
    (compiled : Option (String → Bool)) (registry : List String)
    (cfg : List Genome) :
    ((main args compiled registry cfg).1.countP isCloseEvent =
      if (main args compiled registry cfg).2 = none then 1 else 0) ∧
    ((main args compiled registry cfg).1.countP isExitMsg =
      if (main args compiled registry cfg).2 = none then 1 else 0) := by
  cases compiled with
  | none =>
      rw [main_none_eq]
      simp [startup_countP_close, startup_countP_exit]
  | some m =>
      cases hrg : (runGenomes args m registry cfg).2 with
      | none =>
          have hm2 : (main args (some m) registry cfg).2 = none := by
            rw [main_eq]
            simp only [mainLoop]
            rw [thenRun_of_ok _ hrg]
          rw [main_ok_trace hm2, hm2]
          constructor
          · rw [if_pos rfl, List.countP_append, List.countP_append,
                startup_countP_close, rg_countP_close]
            decide
          · rw [if_pos rfl, List.countP_append, List.countP_append,
                startup_countP_exit, rg_countP_exit]
            decide
      | some err =>
          have hm2 : (main args (some m) registry cfg).2 = some err := by
            rw [main_eq]
            simp only [mainLoop]
            rw [thenRun_of_err _ hrg]
          have htr : (main args (some m) registry cfg).1 =
              startupEvents args ++ (runGenomes args m registry cfg).1 := by
            rw [main_eq]
            simp only [mainLoop]
            rw [thenRun_of_err _ hrg]
          rw [htr, hm2]
          simp [List.countP_append, startup_countP_close, rg_countP_close,
                startup_countP_exit, rg_countP_exit]

/-- C3: on a successful unrestricted run, the strategy invocations of
the whole trace are exactly, and in this order: for each selected genome
in configuration order, for each of its declared datatypes in the
canonical order assembly, models, orthology, the triple download,
import, deploy — nothing interleaved across datatypes or genomes. -/
theorem canonical_order_of_invocations (args : Args) (m : String → Bool)
    (registry : List String) (cfg : List Genome)
    (hphase : args.phase = none) (htype : args.type = none)
    (hok : (main args (some m) registry cfg).2 = none) :
    (main args (some m) registry cfg).1.filter Event.isInvoke =
      (selectGenomes m cfg).flatMap (fun g =>
        (VALID_TYPES.filter (fun t => (Genome.get g t).isSome)).flatMap
          (fun t => [Event.invokeDownload g.name t,
                     Event.invokeImport g.name t,
                     Event.invokeDeploy g.name t])) := by
  rw [main_ok_trace hok, List.filter_append, List.filter_append,
      runGenomes_ok_filter hphase htype (main_ok_rg hok)]
  simp [startupEvents, Event.isInvoke]

/-- Witness for C3 on a concrete two-genome run. -/
theorem canonical_order_of_invocations_witness :
    (main exArgs (some matchMouse) exReg [exMouse, exRat]).1.filter
        Event.isInvoke =
      [Event.invokeDownload "mouse" "assembly",
       Event.invokeImport "mouse" "assembly",
       Event.invokeDeploy "mouse" "assembly",
       Event.invokeDownload "mouse" "models",
       Event.invokeImport "mouse" "models",
       Event.invokeDeploy "mouse" "models"] := by
  have h := canonical_order_of_invocations exArgs matchMouse exReg
    [exMouse, exRat] rfl rfl (by decide)
  exact h.trans (by decide)

/-- C4: on a successful run the trace decomposes genome by genome in
configuration order — a genome contributes its processing block iff its
name passes the compiled full-match pattern, and otherwise contributes
exactly a skip notice carrying its name; moreover for every unmatched
genome a skip notice with its name is in the trace and no strategy
construction for its name occurs anywhere in the trace. -/
theorem selection_iff_full_match (args : Args) (m : String → Bool)
    (registry : List String) (cfg : List Genome)
    (hok : (main args (some m) registry cfg).2 = none) :
    ((main args (some m) registry cfg).1 =
      startupEvents args ++
      cfg.flatMap (fun g =>
        if m g.name then (process args registry g).1
        else [Event.logMsg ("Skipped " ++ g.name ++ ".")]) ++
      [Event.logMsg "Builder exiting.", Event.closeLog]) ∧
    ∀ g ∈ cfg, m g.name = false →
      Event.logMsg ("Skipped " ++ g.name ++ ".") ∈
        (main args (some m) registry cfg).1 ∧
      ∀ e ∈ (main args (some m) registry cfg).1,
        constructsFor g.name e = false := by
  refine ⟨main_ok_flat hok,
    fun g hg hne => ⟨?_, fun e he => constructsFor_unmatched hne he⟩⟩
  rw [main_ok_flat hok]
  refine List.mem_append_left _ (List.mem_append_right _ ?_)
  exact List.mem_flatMap.mpr
    ⟨g, hg, by rw [if_neg (by simp [hne])]; exact List.mem_singleton_self _⟩

/-- Witness for C4: in a concrete run "rat" does not match, its skip
notice is logged, and no strategy construction for "rat" occurs. -/
theorem selection_iff_full_match_witness :
    Event.logMsg ("Skipped " ++ Genome.name exRat ++ ".") ∈
      (main exArgs (some matchMouse) exReg [exMouse, exRat]).1 ∧
    constructsFor (Genome.name exRat)
      (Event.constructDownloader "mouse" "assembly" "UrlDownloader") = false := by
  have h := (selection_iff_full_match exArgs matchMouse exReg [exMouse, exRat]
    (by decide)).2 exRat (by decide) (by decide)
  exact ⟨h.1, h.2 _ (by decide)⟩

/-- C5: for a selected (genome, datatype) pair whose section names an
unregistered downloader, resolution raises the KeyError before anything
happens — the pair's phase runner emits no event and no download is
ever invoked for that pair in the whole processing of the genome; and a
section without a `source` field resolves to the canonical default
"UrlDownloader". -/
theorem unknown_source_is_fatal (args : Args) (registry : List String)
    (gg : Genome) (t : String) (sec : DTSection)
    (hsel : args.type = some t ∨ args.type = none)
    (hget : Genome.get gg t = some sec) :
    (registry.contains (resolveSource sec) = false →
      processType args registry gg t =
        ([], some (Err.keyError (resolveSource sec))) ∧
      Event.invokeDownload gg.name t ∉ (process args registry gg).1) ∧
    (sec.source = none → resolveSource sec = "UrlDownloader") := by
  constructor
  · intro hreg
    have hpt := processType_unknown_source hsel hget hreg
    refine ⟨hpt, ?_⟩
    intro hmem
    rcases mem_process_shape hmem with heq | ⟨t2, ht2, hpt2⟩
    · cases heq
    · rcases mem_processType_shape hpt2 with
        ⟨s, h2⟩ | ⟨u, h2⟩ | h2 | h2 | h2 | h2 | h2 | h2
      · cases h2
      · cases h2
      · injection h2 with h3 h4
        subst h4
        rw [hpt] at hpt2
        simp at hpt2
      · cases h2
      · cases h2
      · cases h2
      · cases h2
      · cases h2
  · intro hsrc
    simp [resolveSource, hsrc]

/-- Witness for C5 at a concrete section naming an unknown source. -/
theorem unknown_source_is_fatal_witness :
    processType exArgs exReg exBad "assembly" =
      ([], some (Err.keyError "BogusSource")) := by
  have h := unknown_source_is_fatal exArgs exReg exBad "assembly" exSecBogus
    (Or.inr rfl) (by decide)
  exact ((h.1 (by decide)).1).trans (by decide)

/-- C6: a selected genome declaring none of the three datatypes yields
exactly the processing log entry: no strategy event at all, no error,
and no skip notice for it. -/
theorem no_sections_zero_strategies (args : Args) (registry : List String)
    (gg : Genome) (h : ∀ t ∈ VALID_TYPES, Genome.get gg t = none) :
    process args registry gg =
      ([Event.logMsg ("Processing cfg: " ++ genomeToString gg)], none) ∧
    ((process args registry gg).1.all notStrategy) = true ∧
    Event.logMsg ("Skipped " ++ gg.name ++ ".") ∉
      (process args registry gg).1 := by
  have heq : process args registry gg =
      ([Event.logMsg ("Processing cfg: " ++ genomeToString gg)], none) := by
    simp only [process]
    rw [processTypes_all_absent h]
    rfl
  refine ⟨heq, ?_, ?_⟩
  · rw [heq]
    rfl
  · rw [heq]
    simp only [List.mem_singleton, Event.logMsg.injEq]
    exact fun hh => processing_ne_skipped _ _ hh.symm

/-- Witness for C6 at a concrete genome with no datatype sections. -/
theorem no_sections_zero_strategies_witness :
    process exArgs exReg exBare =
      ([Event.logMsg ("Processing cfg: " ++ genomeToString exBare)], none) :=
  (no_sections_zero_strategies exArgs exReg exBare (by decide)).1

/-- C7: when the selection pattern does not compile, the run stops right
after the startup log with the pattern error: no strategy event, and
the outcome does not depend on the genome configuration at all (the
config is not even read before the pattern is compiled). -/
theorem invalid_pattern_fails_before_any_genome (args : Args)
    (registry : List String) (cfg : List Genome) :
    main args none registry cfg = (startupEvents args, some Err.patternError) ∧
    ((main args none registry cfg).1.all notStrategy) = true ∧
    main args none registry cfg = main args none registry [] := by
  refine ⟨main_none_eq args registry cfg, ?_,
    (main_none_eq args registry cfg).trans (main_none_eq args registry []).symm⟩
  rw [main_none_eq]
  rfl

/-- C8: the driver never mutates a genome record in place — no trace of
the phase runner or of a whole run contains a record-mutation event. -/
theorem record_never_mutated (args : Args) (compiled : Option (String → Bool))
    (registry : List String) (cfg : List Genome) (gg : Genome) :
    ((process args registry gg).1.all notMutation) = true ∧
    ((main args compiled registry cfg).1.all notMutation) = true := by
  constructor
  · rw [List.all_eq_true]
    intro e he
    rcases mem_process_shape he with rfl | ⟨t, ht, hpt⟩
    · rfl
    · rcases mem_processType_shape hpt with
        ⟨s, rfl⟩ | ⟨u, rfl⟩ | rfl | rfl | rfl | rfl | rfl | rfl <;> rfl
  · rw [List.all_eq_true]
    intro e he
    rcases mem_main_cases he with hs | ⟨m, hm, hrg⟩ | rfl | rfl
    · simp [startupEvents] at hs
      rcases hs with rfl | rfl | rfl <;> rfl
    · rcases mem_runGenomes_shape hrg with ⟨g, hg, hmg, hp⟩ | ⟨g, hg, hmg, rfl⟩
      · rcases mem_process_shape hp with rfl | ⟨t, ht, hpt⟩
        · rfl
        · rcases mem_processType_shape hpt with
            ⟨s, rfl⟩ | ⟨u, rfl⟩ | rfl | rfl | rfl | rfl | rfl | rfl <;> rfl
      · rfl
    · rfl
    · rfl

/-- C9: the genome filter is idempotent — filtering an already filtered
genome list with the same compiled pattern changes nothing. -/
theorem genome_filter_idempotent (m : String → Bool) (cfg : List Genome) :
    selectGenomes m (selectGenomes m cfg) = selectGenomes m cfg := by
  simp [selectGenomes, List.filter_filter]

/-- C10, counterexample to the claim as stated: two runs differing only
in the debug flag do not write the same log messages — line 125 logs
`str(self.args)`, which includes the debug flag. -/
theorem debug_flag_changes_arguments_log :
    (main exArgs (some matchMouse) exReg [exMouse]).1 ≠
      (main { exArgs with debug := true } (some matchMouse) exReg
        [exMouse]).1 := by
  decide

/-- C10, amended: the debug flag influences nothing but the startup
`Arguments:` log line — two runs differing only in the flag have the
same outcome, the same whole loop behavior, identical traces after the
first three events, and identical first two events. -/
theorem debug_flag_unread_after_startup (args : Args) (b1 b2 : Bool)
    (compiled : Option (String → Bool)) (registry : List String)
    (cfg : List Genome) :
    mainLoop { args with debug := b1 } compiled registry cfg =
      mainLoop { args with debug := b2 } compiled registry cfg ∧
    (main { args with debug := b1 } compiled registry cfg).2 =
      (main { args with debug := b2 } compiled registry cfg).2 ∧
    (main { args with debug := b1 } compiled registry cfg).1.drop 3 =
      (main { args with debug := b2 } compiled registry cfg).1.drop 3 ∧
    (main { args with debug := b1 } compiled registry cfg).1.take 2 =
      (main { args with debug := b2 } compiled registry cfg).1.take 2 := by
  have h := (mainLoop_debug args b1 compiled registry cfg).trans
    (mainLoop_debug args b2 compiled registry cfg).symm
  refine ⟨h, ?_, ?_, ?_⟩
  · rw [main_eq, main_eq, h]
  · rw [main_eq, main_eq, h]
    simp [startupEvents]
  · rw [main_eq, main_eq]
    simp [startupEvents]

end MgvData
